import Mathlib

/-!
# Shallow embedding of the CoreNG SharedSpi driver

This file embeds `src/libraries/SharedSpi/SharedSpi.cpp`, the shared SPI bus
driver, and proves properties of its bus lock, device configuration,
chip-select sequencing and bounded-timeout transceive loop.

The source is compiled for one of two hardware variants selected by the
preprocessor: the `SAM4E` build drives a USART in SPI mode, the other build
(`SAM3XA` features) drives the native SPI peripheral.  Hardware status flags
(`usart_is_tx_ready`, `spi_is_tx_ready`, ...) and the receive register are
external inputs; they are modelled as oracle functions supplied to the
driver.  Register writes and pin toggles are modelled as recorded traces.
-/

/-- The two build-time hardware variants of the driver: `SAM4E` (USART
emulated SPI) versus the native SPI peripheral build (`SAM3XA` features). -/
inductive Variant where
  | sam4e
  | sam3xa
deriving DecidableEq

/-- `#define SPI_TIMEOUT 15000` — time-out value (number of attempts). -/
def SPI_TIMEOUT : Nat := 15000

/-- `#define MAX_NUM_WITH_DECODER 0x10` — max number when the chip selects are
connected to a 4- to 16-bit decoder. -/
def MAX_NUM_WITH_DECODER : Nat := 0x10

/-- `#define MAX_NUM_WITHOUT_DECODER 0x04` — max number when the chip selects
are directly connected to the peripheral device. -/
def MAX_NUM_WITHOUT_DECODER : Nat := 0x04

/-- `#define NONE_CHIP_SELECT_ID 0x0f` — the "no device selected" sentinel. -/
def NONE_CHIP_SELECT_ID : Nat := 0x0f

/-- The `LASTXFER` bit of the transmit data register (bit 24 of `SPI_TDR`,
from the SAM device header; the value itself is outside src/). -/
def SPI_TDR_LASTXFER : Nat := 0x01000000

/-- The status values of `spi_status_t` used by the driver (`SPI_OK`,
`SPI_ERROR_TIMEOUT`; the ASF enum also carries further error codes, of which
the driver returns none). -/
inductive spi_status where
  | SPI_OK
  | SPI_ERROR
  | SPI_ERROR_TIMEOUT
  | SPI_ERROR_ARGUMENT
deriving DecidableEq

/-! ## The bus lock

`static bool sspiLocked = false;` guards the bus.  `sspi_acquire` does a
check-and-set inside an interrupt-disabled critical section (the irq
save/restore is external and does not change the lock state); `sspi_release`
unconditionally clears the flag.  The lock state is threaded explicitly. -/

/-- `sspi_acquire`: returns `(rslt, new lock state)`; `rslt` is `false` and
the state unchanged if the lock was held, otherwise `true` with the lock now
held. -/
def sspi_acquire (sspiLocked : Bool) : Bool × Bool :=
  if sspiLocked then (false, sspiLocked) else (true, true)

/-- `sspi_release`: unconditionally clears the lock flag. -/
def sspi_release (_sspiLocked : Bool) : Bool :=
  false

/-! ## The bounded polling loops

`waitForTxReady` and `waitForRxReady` both read
`uint32_t timeout = SPI_TIMEOUT; while (!ready) { if (--timeout == 0) return true; } return false;`
(the polled flag differs per variant but the loop is identical).
`waitForTxEmpty` uses the post-decrement test `if (!timeout--)` instead.
The polled hardware flag is an oracle `ready : Nat → Bool`, indexed by the
poll attempt number. -/

/-- The pre-decrement poll loop body: poll, and on failure decrement the
budget, giving up (returning `true` = timed out) when it reaches zero.
`k` is the index of the current poll attempt. -/
def pollWaitPre (ready : Nat → Bool) (k : Nat) : Nat → Bool
  | 0 => true
  | t + 1 => if ready k then false else pollWaitPre ready (k + 1) t

/-- The post-decrement poll loop body (`if (!timeout--)`): poll, and on
failure give up when the budget already reads zero, else decrement. -/
def pollWaitPost (ready : Nat → Bool) (k : Nat) : Nat → Bool
  | 0 => if ready k then false else true
  | t + 1 => if ready k then false else pollWaitPost ready (k + 1) t

/-- Number of poll attempts the pre-decrement loop performs. -/
def pollCountPre (ready : Nat → Bool) (k : Nat) : Nat → Nat
  | 0 => 0
  | t + 1 => if ready k then 1 else 1 + pollCountPre ready (k + 1) t

/-- Number of poll attempts the post-decrement loop performs. -/
def pollCountPost (ready : Nat → Bool) (k : Nat) : Nat → Nat
  | 0 => 1
  | t + 1 => if ready k then 1 else 1 + pollCountPost ready (k + 1) t

/-- `waitForTxReady`: wait for transmitter ready, returning `true` if timed
out; budget `SPI_TIMEOUT`, pre-decrement test. -/
def waitForTxReady (ready : Nat → Bool) : Bool :=
  pollWaitPre ready 0 SPI_TIMEOUT

/-- `waitForRxReady`: wait for receive data available, returning `true` if
timed out; budget `SPI_TIMEOUT`, pre-decrement test. -/
def waitForRxReady (ready : Nat → Bool) : Bool :=
  pollWaitPre ready 0 SPI_TIMEOUT

/-- `waitForTxEmpty`: wait for transmitter empty, returning `true` if timed
out; budget `SPI_TIMEOUT`, post-decrement test. -/
def waitForTxEmpty (ready : Nat → Bool) : Bool :=
  pollWaitPost ready 0 SPI_TIMEOUT

/-! ## The transceive engine -/

/-- The hardware environment seen by `sspi_transceive_packet`: the tx-ready
and rx-ready status flags (indexed by transfer step and poll attempt) and the
receive data register contents at each step. -/
structure SpiEnv where
  txReady : Nat → Nat → Bool
  rxReady : Nat → Nat → Bool
  rdr : Nat → Nat

/-- `(tx_data == nullptr) ? 0x000000FF : (uint32_t)tx_data[i]` (source line
342): `tx_data[i]` if the outgoing buffer is present (a `uint8_t`, hence
reduced mod 256), else the fill value `0xFF`. -/
def txByte (tx_data : Option (Nat → Nat)) (i : Nat) : Nat :=
  match tx_data with
  | none => 0xFF
  | some f => f i % 256

/-- The outgoing word of step `i` (source lines 342–346): `txByte`, with the
`LASTXFER` marker OR-ed on on the final step (`i + 1 == len`). -/
def transceiveWord (tx_data : Option (Nat → Nat)) (len i : Nat) : Nat :=
  if i + 1 = len then Nat.lor (txByte tx_data i) SPI_TDR_LASTXFER
  else txByte tx_data i

/-- The body of the `for (uint32_t i = 0; i < len; ++i)` loop of
`sspi_transceive_packet`, processing steps `i, i+1, ...` with `r` steps
remaining.  Returns the status, the final contents of the incoming buffer's
memory (`rx`, updated only when `rxPresent`), and the sequence of words
written to the transmit data register. -/
def transceiveAux (env : SpiEnv) (tx_data : Option (Nat → Nat))
    (rxPresent : Bool) (len : Nat) :
    Nat → Nat → (Nat → Nat) → spi_status × (Nat → Nat) × List Nat
  | _, 0, rx => (spi_status.SPI_OK, rx, [])
  | i, r + 1, rx =>
    if waitForTxReady (env.txReady i) then
      (spi_status.SPI_ERROR_TIMEOUT, rx, [])
    else
      let dOut := transceiveWord tx_data len i
      if waitForRxReady (env.rxReady i) then
        (spi_status.SPI_ERROR_TIMEOUT, rx, [dOut])
      else
        let dIn := env.rdr i % 256
        let rx1 := if rxPresent then (fun j => if j = i then dIn else rx j) else rx
        let rest := transceiveAux env tx_data rxPresent len (i + 1) r rx1
        (rest.1, rest.2.1, dOut :: rest.2.2)

/-- `sspi_transceive_packet(tx_data, rx_data, len)`: send and receive a
sequence of bytes.  `tx_data == nullptr` is `tx_data = none`; the incoming
buffer is modelled by its presence flag (`rx_data != nullptr`) and the memory
`rx` behind the pointer. -/
def sspi_transceive_packet (env : SpiEnv) (tx_data : Option (Nat → Nat))
    (rxPresent : Bool) (rx : Nat → Nat) (len : Nat) :
    spi_status × (Nat → Nat) × List Nat :=
  transceiveAux env tx_data rxPresent len 0 len rx

/-- The transmit-ready wait of step `i` succeeds (does not time out). -/
def txPollOk (env : SpiEnv) (i : Nat) : Bool :=
  ! waitForTxReady (env.txReady i)

/-- The receive-ready wait of step `i` succeeds (does not time out). -/
def rxPollOk (env : SpiEnv) (i : Nat) : Bool :=
  ! waitForRxReady (env.rxReady i)

/-- Step `i` completes: both its waits succeed. -/
def stepOk (env : SpiEnv) (i : Nat) : Bool :=
  txPollOk env i && rxPollOk env i

/-! ## Device configuration (`sspi_master_init`, `sspi_master_setup_device`)

`sspi_master_setup_device` programs the clock polarity, clock phase and baud
divisor.  On `SAM4E` it builds the `US_MR` register: the `CPOL` bit is set iff
`spiMode & 2`, the `CPHA` bit iff `spiMode & 1`, and `US_BRGR` gets
`SystemCoreClock / baud_rate`.  On the native build it calls
`spi_set_clock_polarity(…, spiMode >> 1)`,
`spi_set_clock_phase(…, (spiMode & 0x1) ^ 0x1)` and
`spi_set_baudrate_div(…, spi_calc_baudrate_div(baud_rate, SystemCoreClock))`.
We model the configured polarity/phase bit and divisor value per variant. -/

/-- The clock-polarity bit `sspi_master_setup_device` configures: on `SAM4E`
the `US_MR_CPOL` bit (set iff `spiMode & 2`), on the native build the value
`spiMode >> 1` passed to `spi_set_clock_polarity`. -/
def sspi_master_setup_device_cpol : Variant → Nat → Nat
  | .sam4e, spiMode => if spiMode &&& 2 ≠ 0 then 1 else 0
  | .sam3xa, spiMode => spiMode >>> 1

/-- The clock-phase bit `sspi_master_setup_device` configures: on `SAM4E` the
`US_MR_CPHA` bit (set iff `spiMode & 1`), on the native build the value
`(spiMode & 0x1) ^ 0x1` passed to `spi_set_clock_phase`. -/
def sspi_master_setup_device_cpha : Variant → Nat → Nat
  | .sam4e, spiMode => if spiMode &&& 1 ≠ 0 then 1 else 0
  | .sam3xa, spiMode => (spiMode &&& 1) ^^^ 1

/-- Modelled from the spec: `spi_calc_baudrate_div` is an ASF SPI helper whose
body is not under src/ (only its call site is); the spec states the baud
divisor is computed as `coreClockHz / baudRateHz` using integer division. -/
def spi_calc_baudrate_div (baudrate mck : Nat) : Nat :=
  mck / baudrate

/-- The baud divisor `sspi_master_setup_device` applies: on `SAM4E` the value
written to `US_BRGR` (`SystemCoreClock / baud_rate`), on the native build the
result of `spi_calc_baudrate_div(baud_rate, SystemCoreClock)`. -/
def sspi_master_setup_device_baudDiv : Variant → Nat → Nat → Nat
  | .sam4e, coreClock, baud_rate => coreClock / baud_rate
  | .sam3xa, coreClock, baud_rate => spi_calc_baudrate_div baud_rate coreClock

/-- The word-width configuration `sspi_master_init` stores in `device->bits`:
`US_MR_CHRL_8_BIT` / `SPI_CSR_BITS_8_BIT` (8-bit) or `SPI_CSR_BITS_16_BIT`. -/
inductive BitsSetting where
  | bits8
  | bits16
deriving DecidableEq

/-- The `device->bits` value set by `sspi_master_init(device, bits)`: on
`SAM4E` always the 8-bit USART character length; on the native build a switch
mapping 16 to the 16-bit setting and everything else (case 8 and default) to
the 8-bit setting. -/
def sspi_master_init_bits : Variant → Nat → BitsSetting
  | .sam4e, _ => BitsSetting.bits8
  | .sam3xa, bits => if bits = 16 then BitsSetting.bits16 else BitsSetting.bits8

/-! ## Chip-select sequencing (`sspi_select_device`, `sspi_deselect_device`)

These perform a sequence of externally visible actions (a bounded wait, writes
to the peripheral-chip-select field, the `LASTXFER` command, and driving the
CS pin); we record that sequence as a trace, in program order. -/

/-- An externally visible action of select/deselect sequencing. -/
inductive BusAction where
  /-- The bounded wait for transmitter empty, recording whether it timed out. -/
  | waitTxEmpty (timedOut : Bool)
  /-- `spi_set_lastxfer` — the "last transfer" command. -/
  | setLastxfer
  /-- `spi_set_peripheral_chip_select_value` with the given 32-bit value. -/
  | setPcsValue (value : Nat)
  /-- `digitalWrite(pin, level)` on the CS pin; `high = false` is `LOW`. -/
  | csWrite (pin : Nat) (high : Bool)
deriving DecidableEq

/-- `sspi_select_device`: on the `SAM3XA` build, if `device->id` is below
`MAX_NUM_WITHOUT_DECODER`, program the peripheral-chip-select value with
`~(1 << device->id)` (a 32-bit complement); then drive the CS pin `LOW`. -/
def sspi_select_device (v : Variant) (id : Nat) (csPin : Nat) : List BusAction :=
  (match v with
   | .sam3xa =>
     if id < MAX_NUM_WITHOUT_DECODER then
       [BusAction.setPcsValue ((2 ^ 32 - 1) ^^^ (1 <<< id))]
     else []
   | .sam4e => []) ++ [BusAction.csWrite csPin false]

/-- `sspi_deselect_device`: wait for transmitter empty (result ignored); on
the `SAM3XA` build issue `spi_set_lastxfer` then program the
peripheral-chip-select value to `NONE_CHIP_SELECT_ID`; finally drive the CS
pin `HIGH`. -/
def sspi_deselect_device (v : Variant) (txEmpty : Nat → Bool) (csPin : Nat) :
    List BusAction :=
  [BusAction.waitTxEmpty (waitForTxEmpty txEmpty)] ++
  (match v with
   | .sam3xa => [BusAction.setLastxfer, BusAction.setPcsValue NONE_CHIP_SELECT_ID]
   | .sam4e => []) ++ [BusAction.csWrite csPin true]

/-! ## Lemmas about the polling loops -/

/-- Against a flag that never reads ready, the pre-decrement wait times out. -/
theorem pollWaitPre_of_never (ready : Nat → Bool) (h : ∀ a, ready a = false) :
    ∀ t k, pollWaitPre ready k t = true := by
  intro t
  induction t with
  | zero => intro k; rfl
  | succ t ih => intro k; simp [pollWaitPre, h k, ih]

/-- The pre-decrement wait performs at most `t` poll attempts. -/
theorem pollCountPre_le (ready : Nat → Bool) :
    ∀ t k, pollCountPre ready k t ≤ t := by
  intro t
  induction t with
  | zero => intro k; simp [pollCountPre]
  | succ t ih =>
    intro k
    simp only [pollCountPre]
    by_cases h : ready k
    · simp [h]
    · rw [if_neg h]
      have := ih (k + 1)
      omega

/-- The post-decrement wait performs at most `t + 1` poll attempts. -/
theorem pollCountPost_le (ready : Nat → Bool) :
    ∀ t k, pollCountPost ready k t ≤ t + 1 := by
  intro t
  induction t with
  | zero => intro k; simp [pollCountPost]
  | succ t ih =>
    intro k
    simp only [pollCountPost]
    by_cases h : ready k
    · simp [h]
    · rw [if_neg h]
      have := ih (k + 1)
      omega

/-- Unfolding: with no steps remaining the loop returns `SPI_OK` untouched. -/
theorem transceiveAux_zero (env : SpiEnv) (tx_data : Option (Nat → Nat))
    (rxPresent : Bool) (len i : Nat) (rx : Nat → Nat) :
    transceiveAux env tx_data rxPresent len i 0 rx = (spi_status.SPI_OK, rx, []) :=
  rfl

/-- Unfolding: the transmit-ready wait of step `i` times out. -/
theorem transceiveAux_succ_txTimeout (env : SpiEnv) (tx_data : Option (Nat → Nat))
    (rxPresent : Bool) (len i r : Nat) (rx : Nat → Nat)
    (htx : waitForTxReady (env.txReady i) = true) :
    transceiveAux env tx_data rxPresent len i (r + 1) rx =
      (spi_status.SPI_ERROR_TIMEOUT, rx, []) := by
  simp [transceiveAux, htx]

/-- Unfolding: the receive-ready wait of step `i` times out (after the word
was written). -/
theorem transceiveAux_succ_rxTimeout (env : SpiEnv) (tx_data : Option (Nat → Nat))
    (rxPresent : Bool) (len i r : Nat) (rx : Nat → Nat)
    (htx : waitForTxReady (env.txReady i) = false)
    (hrx : waitForRxReady (env.rxReady i) = true) :
    transceiveAux env tx_data rxPresent len i (r + 1) rx =
      (spi_status.SPI_ERROR_TIMEOUT, rx, [transceiveWord tx_data len i]) := by
  simp [transceiveAux, htx, hrx]

/-- Unfolding: both waits of step `i` succeed; the word is written, the read
byte stored when the incoming buffer is present, and the loop continues. -/
theorem transceiveAux_succ_ok (env : SpiEnv) (tx_data : Option (Nat → Nat))
    (rxPresent : Bool) (len i r : Nat) (rx : Nat → Nat)
    (htx : waitForTxReady (env.txReady i) = false)
    (hrx : waitForRxReady (env.rxReady i) = false) :
    transceiveAux env tx_data rxPresent len i (r + 1) rx =
      ((transceiveAux env tx_data rxPresent len (i + 1) r
          (if rxPresent then (fun j => if j = i then env.rdr i % 256 else rx j) else rx)).1,
       (transceiveAux env tx_data rxPresent len (i + 1) r
          (if rxPresent then (fun j => if j = i then env.rdr i % 256 else rx j) else rx)).2.1,
       transceiveWord tx_data len i ::
         (transceiveAux env tx_data rxPresent len (i + 1) r
           (if rxPresent then (fun j => if j = i then env.rdr i % 256 else rx j) else rx)).2.2) := by
  simp [transceiveAux, htx, hrx]

/-! ## Characterization of the transceive loop -/

/-- The status returned by the loop from step `i` with `r` steps remaining is
`SPI_OK` exactly when every remaining step's two waits succeed. -/
theorem transceiveAux_fst_eq_ok (env : SpiEnv) (tx_data : Option (Nat → Nat))
    (rxPresent : Bool) (len : Nat) :
    ∀ r i rx, (transceiveAux env tx_data rxPresent len i r rx).1 = spi_status.SPI_OK ↔
      ∀ m, m < r → stepOk env (i + m) = true := by
  intro r
  induction r with
  | zero => intro i rx; simp [transceiveAux_zero]
  | succ r ih =>
    intro i rx
    cases htx : waitForTxReady (env.txReady i) with
    | true =>
      rw [transceiveAux_succ_txTimeout env tx_data rxPresent len i r rx htx]
      constructor
      · intro h; cases h
      · intro h
        have h0 := h 0 (by omega)
        simp [stepOk, txPollOk, htx] at h0
    | false =>
      cases hrx : waitForRxReady (env.rxReady i) with
      | true =>
        rw [transceiveAux_succ_rxTimeout env tx_data rxPresent len i r rx htx hrx]
        constructor
        · intro h; cases h
        · intro h
          have h0 := h 0 (by omega)
          simp [stepOk, txPollOk, rxPollOk, htx, hrx] at h0
      | false =>
        rw [transceiveAux_succ_ok env tx_data rxPresent len i r rx htx hrx]
        rw [ih]
        have hstep : stepOk env i = true := by
          simp [stepOk, txPollOk, rxPollOk, htx, hrx]
        constructor
        · intro h m hm
          match m, hm with
          | 0, _ => simpa using hstep
          | m + 1, hm =>
            have := h m (by omega)
            simpa [Nat.add_assoc, Nat.add_comm 1 m] using this
        · intro h m hm
          have := h (m + 1) (by omega)
          simpa [Nat.add_assoc, Nat.add_comm 1 m] using this

/-- Every word the loop writes to the transmit register is the corresponding
step's outgoing word. -/
theorem transceiveAux_writes (env : SpiEnv) (tx_data : Option (Nat → Nat))
    (rxPresent : Bool) (len : Nat) :
    ∀ r i rx j, j < ((transceiveAux env tx_data rxPresent len i r rx).2.2).length →
      ((transceiveAux env tx_data rxPresent len i r rx).2.2).getD j 0 =
        transceiveWord tx_data len (i + j) := by
  intro r
  induction r with
  | zero =>
    intro i rx j hj
    rw [transceiveAux_zero] at hj
    simp at hj
  | succ r ih =>
    intro i rx j hj
    cases htx : waitForTxReady (env.txReady i) with
    | true =>
      rw [transceiveAux_succ_txTimeout env tx_data rxPresent len i r rx htx] at hj
      simp at hj
    | false =>
      cases hrx : waitForRxReady (env.rxReady i) with
      | true =>
        rw [transceiveAux_succ_rxTimeout env tx_data rxPresent len i r rx htx hrx] at hj ⊢
        simp only [List.length_singleton] at hj
        have hj0 : j = 0 := by omega
        subst hj0
        simp
      | false =>
        rw [transceiveAux_succ_ok env tx_data rxPresent len i r rx htx hrx] at hj ⊢
        dsimp only at hj ⊢
        cases j with
        | zero => simp
        | succ j =>
          simp only [List.length_cons] at hj
          rw [List.getD_cons_succ]
          have := ih (i + 1)
            (if rxPresent then (fun j => if j = i then env.rdr i % 256 else rx j) else rx)
            j (by omega)
          rw [this]
          congr 1
          omega

/-- The final contents of the incoming buffer's memory: cell `j` holds the
byte received at step `j` exactly when the buffer is present and step `j` is
a remaining step all of whose predecessors (itself included) completed; every
other cell keeps its previous value. -/
theorem transceiveAux_rxMem (env : SpiEnv) (tx_data : Option (Nat → Nat))
    (rxPresent : Bool) (len : Nat) :
    ∀ r i rx j,
      (transceiveAux env tx_data rxPresent len i r rx).2.1 j =
        if rxPresent = true ∧
            ∃ m, m < r ∧ j = i + m ∧ (∀ n, n ≤ m → stepOk env (i + n) = true)
        then env.rdr j % 256 else rx j := by
  intro r
  induction r with
  | zero =>
    intro i rx j
    rw [transceiveAux_zero]
    rw [if_neg]
    rintro ⟨-, m, hm, -⟩
    omega
  | succ r ih =>
    intro i rx j
    cases htx : waitForTxReady (env.txReady i) with
    | true =>
      rw [transceiveAux_succ_txTimeout env tx_data rxPresent len i r rx htx]
      rw [if_neg]
      rintro ⟨-, m, -, -, hp⟩
      have h0 := hp 0 (by omega)
      simp [stepOk, txPollOk, htx] at h0
    | false =>
      cases hrx : waitForRxReady (env.rxReady i) with
      | true =>
        rw [transceiveAux_succ_rxTimeout env tx_data rxPresent len i r rx htx hrx]
        rw [if_neg]
        rintro ⟨-, m, -, -, hp⟩
        have h0 := hp 0 (by omega)
        simp [stepOk, txPollOk, rxPollOk, htx, hrx] at h0
      | false =>
        rw [transceiveAux_succ_ok env tx_data rxPresent len i r rx htx hrx]
        dsimp only
        rw [ih]
        have hstep : stepOk env i = true := by
          simp [stepOk, txPollOk, rxPollOk, htx, hrx]
        have hiff :
            (∃ m, m < r + 1 ∧ j = i + m ∧ (∀ n, n ≤ m → stepOk env (i + n) = true)) ↔
            (j = i ∨ ∃ m, m < r ∧ j = (i + 1) + m ∧
              (∀ n, n ≤ m → stepOk env ((i + 1) + n) = true)) := by
          constructor
          · rintro ⟨m, hm, hj, hp⟩
            match m, hm, hj, hp with
            | 0, _, hj, _ => exact Or.inl (by omega)
            | m + 1, hm, hj, hp =>
              refine Or.inr ⟨m, by omega, by omega, fun n hn => ?_⟩
              have := hp (n + 1) (by omega)
              have harith : i + (n + 1) = i + 1 + n := by omega
              rwa [harith] at this
          · rintro (hj | ⟨m, hm, hj, hp⟩)
            · exact ⟨0, by omega, by omega, fun n hn => by
                have hn0 : n = 0 := by omega
                subst hn0
                simpa using hstep⟩
            · refine ⟨m + 1, by omega, by omega, fun n hn => ?_⟩
              match n, hn with
              | 0, _ => simpa using hstep
              | n + 1, hn =>
                have := hp n (by omega)
                have harith : i + (n + 1) = i + 1 + n := by omega
                rwa [harith]
        cases hrxP : rxPresent with
        | false => simp
        | true =>
          simp only [hiff]
          by_cases hnew : ∃ m, m < r ∧ j = (i + 1) + m ∧
              (∀ n, n ≤ m → stepOk env ((i + 1) + n) = true)
          · simp [hnew]
          · by_cases hji : j = i
            · subst hji
              simp [hnew]
            · simp [hnew, hji]

/-- The transceive loop only ever returns `SPI_OK` or `SPI_ERROR_TIMEOUT`. -/
theorem transceiveAux_fst_cases (env : SpiEnv) (tx_data : Option (Nat → Nat))
    (rxPresent : Bool) (len : Nat) :
    ∀ r i rx, (transceiveAux env tx_data rxPresent len i r rx).1 = spi_status.SPI_OK ∨
      (transceiveAux env tx_data rxPresent len i r rx).1 = spi_status.SPI_ERROR_TIMEOUT := by
  intro r
  induction r with
  | zero => intro i rx; exact Or.inl rfl
  | succ r ih =>
    intro i rx
    cases htx : waitForTxReady (env.txReady i) with
    | true =>
      rw [transceiveAux_succ_txTimeout env tx_data rxPresent len i r rx htx]
      exact Or.inr rfl
    | false =>
      cases hrx : waitForRxReady (env.rxReady i) with
      | true =>
        rw [transceiveAux_succ_rxTimeout env tx_data rxPresent len i r rx htx hrx]
        exact Or.inr rfl
      | false =>
        rw [transceiveAux_succ_ok env tx_data rxPresent len i r rx htx hrx]
        exact ih (i + 1) _

/-! ## Concrete environments used to instantiate the theorems -/

/-- A hardware environment whose status flags always read ready and whose
receive register always reads zero. -/
def allReadyEnv : SpiEnv where
  txReady := fun _ _ => true
  rxReady := fun _ _ => true
  rdr := fun _ => 0

/-- A hardware environment that never signals ready. -/
def neverReadyEnv : SpiEnv where
  txReady := fun _ _ => false
  rxReady := fun _ _ => false
  rdr := fun _ => 0

/-- The all-zero memory. -/
def zeroMem : Nat → Nat := fun _ => 0

/-! ## The claims -/

/-- C1: at each step of `sspi_transceive_packet` the transmit-ready and
receive-ready polls each use the fixed budget `SPI_TIMEOUT = 15000` attempts;
the call returns `SPI_OK` exactly when every one of the `len` steps' two
polls succeeds, and any other outcome is `SPI_ERROR_TIMEOUT`. -/
theorem sspi_transceive_packet_ok_iff_no_poll_timeout :
    SPI_TIMEOUT = 15000 ∧
    (∀ ready, waitForTxReady ready = pollWaitPre ready 0 15000) ∧
    (∀ ready, waitForRxReady ready = pollWaitPre ready 0 15000) ∧
    ∀ env tx_data rxPresent rx len,
      ((sspi_transceive_packet env tx_data rxPresent rx len).1 = spi_status.SPI_OK ↔
        ∀ i, i < len → txPollOk env i = true ∧ rxPollOk env i = true) ∧
      ((sspi_transceive_packet env tx_data rxPresent rx len).1 = spi_status.SPI_OK ∨
        (sspi_transceive_packet env tx_data rxPresent rx len).1 =
          spi_status.SPI_ERROR_TIMEOUT) := by
  refine ⟨rfl, fun _ => rfl, fun _ => rfl, fun env tx_data rxPresent rx len => ⟨?_, ?_⟩⟩
  · rw [sspi_transceive_packet, transceiveAux_fst_eq_ok]
    constructor
    · intro h i hi
      have := h i hi
      simpa [stepOk, Bool.and_eq_true] using this
    · intro h m hm
      have := h m hm
      simpa [stepOk, Bool.and_eq_true] using this
  · exact transceiveAux_fst_cases env tx_data rxPresent len len 0 rx

/-- C3: from the unlocked state `sspi_acquire` returns `true` and holds the
bus; a second `sspi_acquire` returns `false` and leaves the lock held; after
`sspi_release` a further `sspi_acquire` succeeds again; `sspi_release`
unconditionally clears the flag, and `sspi_acquire` is a single
check-and-set (returns without retrying, leaving the flag set exactly when
it was set or the call succeeded). -/
theorem sspi_acquire_release_protocol :
    sspi_acquire false = (true, true) ∧
    sspi_acquire (sspi_acquire false).2 = (false, true) ∧
    sspi_acquire (sspi_release (sspi_acquire (sspi_acquire false).2).2) = (true, true) ∧
    (∀ s, sspi_release s = false) ∧
    (∀ s, sspi_acquire s = if s then (false, s) else (true, true)) := by
  refine ⟨rfl, rfl, rfl, fun s => rfl, fun s => ?_⟩
  cases s <;> rfl

/-- C4: `sspi_transceive_packet` terminates on every input; against a device
that never signals transmit-ready it returns `SPI_ERROR_TIMEOUT`, and every
wait performs a bounded number of poll attempts: at most `SPI_TIMEOUT` for
the pre-decrement waits (`waitForTxReady`, `waitForRxReady`) and at most
`SPI_TIMEOUT + 1` for the post-decrement wait (`waitForTxEmpty`). -/
theorem sspi_transceive_packet_timeout_bounded (env : SpiEnv)
    (tx_data : Option (Nat → Nat)) (rxPresent : Bool) (rx : Nat → Nat) (len : Nat)
    (hlen : 0 < len) (hnever : ∀ i a, env.txReady i a = false) :
    (sspi_transceive_packet env tx_data rxPresent rx len).1 =
      spi_status.SPI_ERROR_TIMEOUT ∧
    (∀ ready k, pollCountPre ready k SPI_TIMEOUT ≤ SPI_TIMEOUT) ∧
    (∀ ready k, pollCountPost ready k SPI_TIMEOUT ≤ SPI_TIMEOUT + 1) := by
  refine ⟨?_, fun ready k => pollCountPre_le ready SPI_TIMEOUT k,
    fun ready k => pollCountPost_le ready SPI_TIMEOUT k⟩
  have htx : waitForTxReady (env.txReady 0) = true :=
    pollWaitPre_of_never (env.txReady 0) (hnever 0) SPI_TIMEOUT 0
  match len, hlen with
  | l + 1, _ =>
    rw [sspi_transceive_packet, transceiveAux_succ_txTimeout env tx_data rxPresent
      (l + 1) 0 l rx htx]

/-- C4 witness: a length-1 transfer against the never-ready device. -/
theorem sspi_transceive_packet_timeout_bounded_witness :
    (sspi_transceive_packet neverReadyEnv none false zeroMem 1).1 =
      spi_status.SPI_ERROR_TIMEOUT ∧
    (∀ ready k, pollCountPre ready k SPI_TIMEOUT ≤ SPI_TIMEOUT) ∧
    (∀ ready k, pollCountPost ready k SPI_TIMEOUT ≤ SPI_TIMEOUT + 1) :=
  sspi_transceive_packet_timeout_bounded neverReadyEnv none false zeroMem 1
    (by decide) (fun _ _ => rfl)

/-- C5: the word written to the transmit register at step `j` is `tx_data[j]`
when the outgoing buffer is present and the fill value `0xFF` when it is
absent, with the `LASTXFER` marker OR-ed on exactly when `j + 1 = len` (bit
24 of the written word is set precisely on the final step). -/
theorem sspi_transceive_packet_word (env : SpiEnv) (tx_data : Option (Nat → Nat))
    (rxPresent : Bool) (rx : Nat → Nat) (len j : Nat)
    (h : j < ((sspi_transceive_packet env tx_data rxPresent rx len).2.2).length) :
    ((sspi_transceive_packet env tx_data rxPresent rx len).2.2).getD j 0 =
      (if j + 1 = len
        then Nat.lor (txByte tx_data j) SPI_TDR_LASTXFER
        else txByte tx_data j) ∧
    (((sspi_transceive_packet env tx_data rxPresent rx len).2.2).getD j 0).testBit 24 =
      decide (j + 1 = len) := by
  have hbase : txByte tx_data j < 256 := by
    cases tx_data with
    | none => simp [txByte]
    | some f => simpa [txByte] using Nat.mod_lt (f j) (by decide)
  have hw := transceiveAux_writes env tx_data rxPresent len len 0 rx j
    (by simpa [sspi_transceive_packet] using h)
  rw [sspi_transceive_packet, hw]
  have hword : transceiveWord tx_data len (0 + j) =
      (if j + 1 = len
        then Nat.lor (txByte tx_data j) SPI_TDR_LASTXFER
        else txByte tx_data j) := by
    simp [transceiveWord]
  rw [hword]
  have hpow : SPI_TDR_LASTXFER = 2 ^ 24 := by norm_num [SPI_TDR_LASTXFER]
  have hlt : txByte tx_data j < 2 ^ 24 := lt_trans hbase (by norm_num)
  refine ⟨rfl, ?_⟩
  by_cases hlen : j + 1 = len
  · rw [if_pos hlen, hpow]
    have hor : (Nat.lor (txByte tx_data j) (2 ^ 24)).testBit 24 =
        ((txByte tx_data j) ||| (2 ^ 24)).testBit 24 := rfl
    rw [hor, Nat.testBit_lor, Nat.testBit_two_pow_self,
      Nat.testBit_lt_two_pow hlt]
    simp [hlen]
  · rw [if_neg hlen, Nat.testBit_lt_two_pow hlt]
    simp [hlen]

/-- C5 witness: a length-1 transfer with no outgoing buffer against the
always-ready device writes `0xFF` with the `LASTXFER` marker. -/
theorem sspi_transceive_packet_word_witness :
    0 < ((sspi_transceive_packet allReadyEnv none false zeroMem 1).2.2).length ∧
    (((sspi_transceive_packet allReadyEnv none false zeroMem 1).2.2).getD 0 0 =
      (if 0 + 1 = 1 then Nat.lor 0xFF SPI_TDR_LASTXFER else 0xFF) ∧
     (((sspi_transceive_packet allReadyEnv none false zeroMem 1).2.2).getD 0 0).testBit 24 =
      decide (0 + 1 = 1)) :=
  ⟨by decide, sspi_transceive_packet_word allReadyEnv none false zeroMem 1 0 (by decide)⟩

/-- C10: cell `j` of the incoming buffer holds the byte received at step `j`
exactly when the buffer is present, `j < len`, and steps `0..j` all
completed — so on a timeout at step `i` only indices `0..i-1` were written
and every later cell keeps its previous value; with the buffer absent the
memory is untouched; and a zero-length call returns `SPI_OK` without writing
the transmit register or the buffer.  (The outgoing buffer is read-only in
the loop: the code never stores to `tx_data`.) -/
theorem sspi_transceive_packet_frame :
    ∀ env tx_data rxPresent rx len,
      (∀ j, (sspi_transceive_packet env tx_data rxPresent rx len).2.1 j =
        if rxPresent = true ∧ j < len ∧ (∀ n, n ≤ j → stepOk env n = true)
        then env.rdr j % 256 else rx j) ∧
      (rxPresent = false → (sspi_transceive_packet env tx_data rxPresent rx len).2.1 = rx) ∧
      (sspi_transceive_packet env tx_data rxPresent rx 0 = (spi_status.SPI_OK, rx, [])) := by
  intro env tx_data rxPresent rx len
  have hmem : ∀ j, (sspi_transceive_packet env tx_data rxPresent rx len).2.1 j =
      if rxPresent = true ∧ j < len ∧ (∀ n, n ≤ j → stepOk env n = true)
      then env.rdr j % 256 else rx j := by
    intro j
    rw [sspi_transceive_packet, transceiveAux_rxMem]
    refine if_congr (and_congr_right fun _ => ?_) rfl rfl
    constructor
    · rintro ⟨m, hm, hj, hp⟩
      refine ⟨by omega, fun n hn => ?_⟩
      have := hp n (by omega)
      simpa using this
    · rintro ⟨hj, hp⟩
      exact ⟨j, hj, by omega, fun n hn => by simpa using hp n hn⟩
  refine ⟨hmem, ?_, rfl⟩
  intro hrxP
  funext j
  rw [hmem j, if_neg]
  rintro ⟨hP, -⟩
  rw [hrxP] at hP
  cases hP

/-- C2 counterexample: on the `SAM4E` variant at `spiMode = 0` the configured
phase bit is `0`, while the claimed value `!(spiMode & 1)` is `1`: the phase
bit is not inverted on that variant. -/
theorem sspi_master_setup_device_cpha_sam4e_not_inverted :
    sspi_master_setup_device_cpha Variant.sam4e 0 = 0 ∧
    ((0 : Nat) &&& 1) ^^^ 1 = 1 := by
  decide

/-- C2 (amended): for every `spiMode ∈ {0,1,2,3}` the configured clock
polarity is `(spiMode >> 1) & 1` on both variants; the configured clock phase
is the inverse of the low mode bit on the native SPI build only, while on the
USART-emulated (`SAM4E`) build it equals the raw low mode bit. -/
theorem sspi_master_setup_device_mode_bits (spiMode : Nat) (h : spiMode < 4) :
    sspi_master_setup_device_cpol Variant.sam3xa spiMode = (spiMode >>> 1) &&& 1 ∧
    sspi_master_setup_device_cpha Variant.sam3xa spiMode =
      (if spiMode &&& 1 = 0 then 1 else 0) ∧
    sspi_master_setup_device_cpol Variant.sam4e spiMode = (spiMode >>> 1) &&& 1 ∧
    sspi_master_setup_device_cpha Variant.sam4e spiMode = spiMode &&& 1 := by
  interval_cases spiMode <;> exact ⟨by decide, by decide, by decide, by decide⟩

/-- C2 witness: mode 2 (`CPOL = 1`, low bit 0). -/
theorem sspi_master_setup_device_mode_bits_witness :
    sspi_master_setup_device_cpol Variant.sam3xa 2 = (2 >>> 1) &&& 1 ∧
    sspi_master_setup_device_cpha Variant.sam3xa 2 =
      (if 2 &&& 1 = 0 then 1 else 0) ∧
    sspi_master_setup_device_cpol Variant.sam4e 2 = (2 >>> 1) &&& 1 ∧
    sspi_master_setup_device_cpha Variant.sam4e 2 = 2 &&& 1 :=
  sspi_master_setup_device_mode_bits 2 (by decide)

/-- C6: on both variants the baud divisor is computed as
`coreClockHz / baudRateHz` by truncating integer division, and at
`coreClockHz = 120000000`, `baudRateHz = 1000000` it is exactly 120. -/
theorem sspi_master_setup_device_baudDiv_div :
    (∀ v coreClock baud_rate,
      sspi_master_setup_device_baudDiv v coreClock baud_rate = coreClock / baud_rate) ∧
    (∀ v, sspi_master_setup_device_baudDiv v 120000000 1000000 = 120) := by
  constructor
  · intro v coreClock baud_rate
    cases v <;> rfl
  · intro v
    cases v <;> decide

/-- C7: `sspi_deselect_device` first performs the bounded transmit-empty wait
(budget `SPI_TIMEOUT`, the same constant as the transceive waits, hence at
most `SPI_TIMEOUT + 1` poll attempts), then on the decoded-select build the
`LASTXFER` mark followed by the `NONE_CHIP_SELECT_ID` sentinel, and drives
the chip-select pin high last; a select immediately followed by a deselect is
a finite action sequence (it never hangs). -/
theorem sspi_deselect_device_sequencing :
    ∀ v txEmpty csPin id,
      sspi_deselect_device v txEmpty csPin =
        [BusAction.waitTxEmpty (waitForTxEmpty txEmpty)] ++
        (if v = Variant.sam3xa then
          [BusAction.setLastxfer, BusAction.setPcsValue NONE_CHIP_SELECT_ID]
        else []) ++ [BusAction.csWrite csPin true] ∧
      (sspi_deselect_device v txEmpty csPin).head? =
        some (BusAction.waitTxEmpty (waitForTxEmpty txEmpty)) ∧
      (sspi_deselect_device v txEmpty csPin).getLast? =
        some (BusAction.csWrite csPin true) ∧
      waitForTxEmpty txEmpty = pollWaitPost txEmpty 0 SPI_TIMEOUT ∧
      (∀ k, pollCountPost txEmpty k SPI_TIMEOUT ≤ SPI_TIMEOUT + 1) ∧
      (sspi_select_device v id csPin ++ sspi_deselect_device v txEmpty csPin).length ≤ 6 := by
  intro v txEmpty csPin id
  refine ⟨?_, ?_, ?_, rfl, fun k => pollCountPost_le txEmpty SPI_TIMEOUT k, ?_⟩
  · cases v <;> simp [sspi_deselect_device]
  · cases v <;> simp [sspi_deselect_device]
  · cases v <;> simp [sspi_deselect_device]
  · cases v with
    | sam4e => simp [sspi_select_device, sspi_deselect_device]
    | sam3xa =>
      by_cases hid : id < MAX_NUM_WITHOUT_DECODER <;>
        simp [sspi_select_device, sspi_deselect_device, hid]

/-- C8 counterexample: device index 5 is within the decoder's addressable
range (`MAX_NUM_WITH_DECODER = 16`) but `sspi_select_device` does not program
the peripheral-chip-select value for it — the code's guard is
`id < MAX_NUM_WITHOUT_DECODER` (4). -/
theorem sspi_select_device_no_pcs_at_five :
    5 < MAX_NUM_WITH_DECODER ∧
    sspi_select_device Variant.sam3xa 5 9 = [BusAction.csWrite 9 false] := by
  constructor
  · decide
  · rfl

/-- C8 (amended): on the decoded-select build `sspi_select_device` programs
the peripheral-chip-select value with the 32-bit complement of
`1 << deviceIndex` exactly for indices below `MAX_NUM_WITHOUT_DECODER` (4),
not the decoder's addressable range; and in every case it drives the
chip-select pin to its asserted low level (as the last action). -/
theorem sspi_select_device_pcs_and_cs :
    ∀ id csPin,
      (id < MAX_NUM_WITHOUT_DECODER →
        sspi_select_device Variant.sam3xa id csPin =
          [BusAction.setPcsValue ((2 ^ 32 - 1) ^^^ (1 <<< id)),
           BusAction.csWrite csPin false]) ∧
      (MAX_NUM_WITHOUT_DECODER ≤ id →
        sspi_select_device Variant.sam3xa id csPin = [BusAction.csWrite csPin false]) ∧
      (∀ v, (sspi_select_device v id csPin).getLast? =
        some (BusAction.csWrite csPin false)) := by
  intro id csPin
  refine ⟨fun h => ?_, fun h => ?_, fun v => ?_⟩
  · simp [sspi_select_device, h]
  · simp [sspi_select_device, Nat.not_lt.mpr h]
  · cases v with
    | sam4e => simp [sspi_select_device]
    | sam3xa =>
      by_cases hid : id < MAX_NUM_WITHOUT_DECODER <;>
        simp [sspi_select_device, hid]

/-- C9: `sspi_master_init` never fails on any word width: on the USART
variant every request (16 included) yields the 8-bit configuration, on the
native build only a request of exactly 16 yields the 16-bit setting and
everything else degrades to the 8-bit default. -/
theorem sspi_master_init_bits_degrades :
    ∀ v bits,
      sspi_master_init_bits Variant.sam4e bits = BitsSetting.bits8 ∧
      sspi_master_init_bits Variant.sam3xa bits =
        (if bits = 16 then BitsSetting.bits16 else BitsSetting.bits8) ∧
      (bits ≠ 8 → bits ≠ 16 → sspi_master_init_bits v bits = BitsSetting.bits8) ∧
      (sspi_master_init_bits v bits = BitsSetting.bits16 →
        v = Variant.sam3xa ∧ bits = 16) := by
  intro v bits
  refine ⟨rfl, rfl, fun h8 h16 => ?_, fun h => ?_⟩
  · cases v with
    | sam4e => rfl
    | sam3xa => simp [sspi_master_init_bits, h16]
  · cases v with
    | sam4e => cases h
    | sam3xa =>
      by_cases h16 : bits = 16
      · exact ⟨rfl, h16⟩
      · rw [sspi_master_init_bits] at h
        simp [h16] at h
